import Mathlib

/-!
Shallow embedding of the HTTP request dispatcher of vagent2
(src/modules/http.c): listener registration and matching, the
per-connection authentication and body-accumulation state machine driven
by repeated transport callbacks, and response construction.

Strings from the C code are modelled as `List Char` (C strings carry no
embedded NUL, so list equality mirrors `strcmp`, prefix testing mirrors
`strncmp` with the pattern's length). The MHD transport is modelled by
passing the per-call inputs (url, method string, Authorization header
value, unconsumed upload bytes) explicitly and returning the call's
effect as a value.
-/

/-- HTTP methods as in the `http_method` enum consumed by http.c
(`parse_method` produces exactly one of these per request). -/
inductive Method where
  | GET
  | POST
  | PUT
  | DELETE
  | OPTIONS
  | UNKNOWN
deriving DecidableEq, Fintype

/-- Method parsing from http.c `parse_method`: the five literal method
names compare with `strcmp`; HEAD maps to GET; anything else is UNKNOWN. -/
def parse_method (s : List Char) : Method :=
  if s = ("GET").toList then Method.GET
  else if s = ("POST").toList then Method.POST
  else if s = ("PUT").toList then Method.PUT
  else if s = ("DELETE").toList then Method.DELETE
  else if s = ("OPTIONS").toList then Method.OPTIONS
  else if s = ("HEAD").toList then Method.GET
  else Method.UNKNOWN

/-- A registered route, `struct http_listener`. The C `unsigned int
method` field is a bitmask over the one-hot `M_GET` .. `M_OPTIONS` bits
(declared in a header outside src/); `lp->method & request->method` is
nonzero exactly when the request's single method bit lies in the mask, so
the mask is modelled as its membership function `Method → Bool`. The
handler (`cb`, `data`) pair is identified by an opaque tag, since only
which handler runs and with which arguments is observable here. -/
structure Listener where
  url : List Char
  method : Method → Bool
  cb : Nat
deriving DecidableEq

/-- Loop `while (*arg == '/') arg++;` from `find_listener`: skip every
leading path separator. -/
def skip_slashes : List Char → List Char
  | [] => []
  | c :: rest => if c = '/' then skip_slashes rest else c :: rest

/-- One iteration of the `find_listener` loop body for a single listener:
`none` means the loop continues (no prefix/method match, or the character
after the prefix is present but not a separator); `some arg` means this
listener is invoked with remainder `arg` (`none` standing for the C `NULL`
argument). -/
def listenerMatch (m : Method) (url : List Char) (lp : Listener) :
    Option (Option (List Char)) :=
  if lp.url.isPrefixOf url && lp.method m then
    match url.drop lp.url.length with
    | [] => some none
    | c :: rest =>
      if c = '/' then
        match skip_slashes (c :: rest) with
        | [] => some none
        | a => some (some a)
      else
        none
  else
    none

/-- http.c `find_listener`: walk the listener list from the front and
invoke the first listener that matches, returning which listener ran and
the remainder argument handed to its callback; `none` when no listener
matched (the C function returns 0). -/
def find_listener (m : Method) (url : List Char) :
    List Listener → Option (Listener × Option (List Char))
  | [] => none
  | lp :: rest =>
    match listenerMatch m url lp with
    | some arg => some (lp, arg)
    | none => find_listener m url rest

/-- http.c `http_register_path`: allocate a listener and push it on the
front of the list (`lp->next = http->listener; http->listener = lp`). -/
def http_register_path (lp : Listener) (reg : List Listener) : List Listener :=
  lp :: reg

/-- An HTTP response under construction, `struct http_response`: status,
optional body (C `NULL` body is `none`) and the singly linked header
list, front of the C list first. -/
structure HttpResponse where
  status : Nat
  body : Option (List Char)
  headers : List (List Char × List Char)
deriving DecidableEq

/-- http.c `http_mkresp`: fresh response with no headers. -/
def http_mkresp (status : Nat) (body : Option (List Char)) : HttpResponse :=
  { status := status, body := body, headers := [] }

/-- http.c `http_add_header`: `hdr->next = resp->headers; resp->headers
= hdr` — the new pair becomes the head of the header list. -/
def http_add_header (resp : HttpResponse) (key value : List Char) :
    HttpResponse :=
  { resp with headers := (key, value) :: resp.headers }

/-- The three CORS headers attached unconditionally by `send_response`,
in the order the code adds them; the allow-origin value echoes the
request's Origin header when present, else `*`. -/
def cors_headers (origin : Option (List Char)) :
    List (List Char × List Char) :=
  [(("Access-Control-Allow-Headers").toList, ("Authorization, Origin").toList),
   (("Access-Control-Allow-Methods").toList, ("GET, POST, PUT, DELETE, OPTIONS").toList),
   (("Access-Control-Allow-Origin").toList,
     match origin with
     | some o => o
     | none => ("*").toList)]

/-- http.c `send_response`, header part: `MHD_add_response_header` is
called for each stored header walking the list from the front, then for
the three CORS headers, so this is the wire emission order. -/
def send_response_headers (resp : HttpResponse) (origin : Option (List Char)) :
    List (List Char × List Char) :=
  resp.headers ++ cors_headers origin

/-- Body text of the 401 response built by `send_auth_response`. -/
def auth_response_body : List Char :=
  ("Authorize, please.\n\nIf Varnish Agent was installed from packages, the /etc/varnish/agent_secret file contains generated credentials.\n").toList

/-- http.c `send_auth_response`: a 401 response carrying the
`WWW-Authenticate: Basic realm=varnish-agent` header. -/
def send_auth_resp : HttpResponse :=
  http_add_header (http_mkresp 401 (some auth_response_body))
    (("WWW-Authenticate").toList) (("Basic realm=varnish-agent").toList)

/-- http.c `http_reply`: a response with the given status and body and an
empty stored-header list, handed straight to `send_response`. -/
def http_reply_resp (status : Nat) (body : Option (List Char)) : HttpResponse :=
  { status := status, body := body, headers := [] }

/-- Per-connection state, `struct connection_info_struct`: the optional
body accumulator (`struct vsb *req_body`, `none` for the C `NULL`
pointer, modelled from the spec as a growable byte buffer since vsb.c is
outside src/) and the `authed` flag (a C int that only ever holds 0
or 1). -/
structure ConnectionInfo where
  req_body : Option (List Char)
  authed : Bool
deriving DecidableEq

/-- http.c `check_auth`: when the state is already authenticated, return
0 (no auth required) untouched; otherwise read the Authorization header,
require the exact six bytes of the scheme marker via
`strncmp(auth, "Basic ", 6)`, and compare the bytes after offset
`sizeof "Basic"` (= 6) to the shared token with `strcmp`, setting
`authed` on an exact match. Returns `(!authed, updated state)`. -/
def check_auth (authHeader : Option (List Char)) (token : List Char)
    (ci : ConnectionInfo) : Bool × ConnectionInfo :=
  if ci.authed = true then
    (false, ci)
  else
    match authHeader with
    | none => (true, ci)
    | some auth =>
      if auth.take 6 = ("Basic ").toList then
        if auth.drop 6 = token then
          (false, { ci with authed := true })
        else
          (true, ci)
      else
        (true, ci)

/-- Configuration consumed by the dispatcher: the read-only-mode flag
(`core->config->r_arg`, truthiness of a C pointer) and the shared
authentication token (`core->config->auth_token`). -/
structure AgentConfig where
  r_arg : Bool
  auth_token : List Char

/-- Module-private state, `struct http_priv_t`: the lazily built help
page cache (`char *help_page`, `none` for `NULL`) and the listener
list. -/
structure HttpPriv where
  help_page : Option (List Char)
  listener : List Listener

/-- Inputs the MHD transport supplies to one `answer_to_connection`
call: url, method string, the connection's Authorization header value,
and the unconsumed upload bytes (`upload_data` of size
`*upload_data_size`; the empty list is a zero size). -/
structure CallInput where
  url : List Char
  methodStr : List Char
  authHeader : Option (List Char)
  upload : List Char

/-- Observable effect of one `answer_to_connection` call: `cont` is
`return MHD_YES` with no response queued; `respond r` queues exactly the
response `r`; `invoke lp req arg` runs listener `lp`'s callback on the
finalized request and remainder argument. -/
inductive CallAction where
  | cont
  | respond (resp : HttpResponse)
  | invoke (lp : Listener) (method : Method) (url : List Char)
      (body : Option (List Char)) (bodylen : Nat) (arg : Option (List Char))
deriving DecidableEq

/-- Result of one `answer_to_connection` call: the action, the value
left in `*con_cls`, the (possibly updated) help-page cache, and the
value left in `*upload_data_size` (as the remaining byte list). -/
structure CallOutput where
  action : CallAction
  con_cls : Option ConnectionInfo
  help_page : Option (List Char)
  upload_remaining : List Char

/-- Fixed help-page preamble, the `HELP_TEXT` macro of http.c. -/
def HELP_TEXT : String :=
  "This is the varnish agent.\n\nGET requests never modify state\nPOST requests are not idempotent, and can modify state\nPUT requests are idempotent, and can modify state\nHEAD requests can be performed on all resources that support GET\n\nThe following URLs are bound:\n\n"

/-- Left-justified minimum-width padding of `printf`'s `%-Ns`. -/
def padRight (s : List Char) (w : Nat) : List Char :=
  s ++ List.replicate (w - s.length) ' '

/-- Method token of one help line: the method's name when the bit is in
the mask, else the empty string. -/
def method_tok (present : Bool) (tok : List Char) : List Char :=
  if present then tok else []

/-- One help line per listener, `snprintf(buf, 512, " - %-20s %-3s %-3s
%-4s %s\n", ...)` in `make_help`; snprintf truncates to 511 bytes. -/
def route_line (lp : Listener) : List Char :=
  ((" - ").toList ++ padRight lp.url 20 ++ [' ']
    ++ padRight (method_tok (lp.method Method.GET) (("GET").toList)) 3 ++ [' ']
    ++ padRight (method_tok (lp.method Method.PUT) (("PUT").toList)) 3 ++ [' ']
    ++ padRight (method_tok (lp.method Method.POST) (("POST").toList)) 4 ++ [' ']
    ++ method_tok (lp.method Method.DELETE) (("DELETE").toList)
    ++ ['\n']).take 511

/-- http.c `make_help`: the fixed preamble, one line per listener in
list order, and a final newline appended by `strcat(data, "\n")`. -/
def make_help (ls : List Listener) : List Char :=
  HELP_TEXT.toList ++ (ls.map route_line).flatten ++ ['\n']

/-- http.c `answer_to_connection`, the per-callback dispatcher, as a
function of the call inputs and the current `*con_cls`:

* first call (`*con_cls == NULL`): allocate state, evaluate
  authentication, allocate the body accumulator only when authentication
  already succeeds, return `MHD_YES`;
* otherwise, reject non-GET/non-OPTIONS methods in read-only mode
  with 405;
* body-chunk call (nonzero `*upload_data_size`): append to the body
  accumulator when present, zero `*upload_data_size`, return `MHD_YES`;
* finalize call: null-terminate and finish the accumulator into the
  request's body/bodylen, answer OPTIONS with an empty 200, send the 401
  response when the auth gate reports auth required, run `find_listener`,
  else serve the lazily cached help page for `GET /`, else 500. -/
def answer_to_connection (cfg : AgentConfig) (http : HttpPriv)
    (inp : CallInput) (con_cls : Option ConnectionInfo) : CallOutput :=
  let m := parse_method inp.methodStr
  match con_cls with
  | none =>
    let res := check_auth inp.authHeader cfg.auth_token
      { req_body := none, authed := false }
    let ci := if res.1 = false then { res.2 with req_body := some [] } else res.2
    { action := CallAction.cont, con_cls := some ci,
      help_page := http.help_page, upload_remaining := inp.upload }
  | some ci =>
    if cfg.r_arg = true ∧ m ≠ Method.GET ∧ m ≠ Method.OPTIONS then
      { action := CallAction.respond (http_reply_resp 405 (some (("Read-only mode").toList))),
        con_cls := some ci, help_page := http.help_page,
        upload_remaining := inp.upload }
    else if inp.upload ≠ [] then
      let ci2 := match ci.req_body with
        | some acc => { ci with req_body := some (acc ++ inp.upload) }
        | none => ci
      { action := CallAction.cont, con_cls := some ci2,
        help_page := http.help_page, upload_remaining := [] }
    else
      let body : Option (List Char) :=
        match ci.req_body with
        | some acc => some (acc ++ [Char.ofNat 0])
        | none => none
      let bodylen : Nat :=
        match ci.req_body with
        | some acc => acc.length
        | none => 0
      let ci2 : ConnectionInfo := { ci with req_body := body }
      if m = Method.OPTIONS then
        { action := CallAction.respond (http_reply_resp 200 none),
          con_cls := some ci2, help_page := http.help_page,
          upload_remaining := [] }
      else
        let res := check_auth inp.authHeader cfg.auth_token ci2
        if res.1 = true then
          { action := CallAction.respond send_auth_resp,
            con_cls := some res.2, help_page := http.help_page,
            upload_remaining := [] }
        else
          match find_listener m inp.url http.listener with
          | some (lp, arg) =>
            { action := CallAction.invoke lp m inp.url body bodylen arg,
              con_cls := some res.2, help_page := http.help_page,
              upload_remaining := [] }
          | none =>
            if m = Method.GET ∧ inp.url = ("/").toList then
              let page :=
                match http.help_page with
                | some p => p
                | none => make_help http.listener
              { action := CallAction.respond (http_reply_resp 200 (some page)),
                con_cls := some res.2, help_page := some page,
                upload_remaining := [] }
            else
              { action := CallAction.respond (http_reply_resp 500 (some (("Failed").toList))),
                con_cls := some res.2, help_page := http.help_page,
                upload_remaining := [] }

/-- Sequencing of transport callbacks on one connection: each call feeds
the updated help-page cache and `*con_cls` into the next, exactly as MHD
re-invokes `answer_to_connection`. -/
def run_calls (cfg : AgentConfig) :
    List CallInput → HttpPriv → Option ConnectionInfo →
      HttpPriv × Option ConnectionInfo
  | [], http, cc => (http, cc)
  | inp :: rest, http, cc =>
    let out := answer_to_connection cfg http inp cc
    run_calls cfg rest { http with help_page := out.help_page } out.con_cls

/-! ## Helper lemmas -/

theorem skip_slashes_eq_dropWhile (l : List Char) :
    skip_slashes l = l.dropWhile (fun c => c == '/') := by
  induction l with
  | nil => rfl
  | cons c rest ih =>
    by_cases hc : c = '/'
    · subst hc
      simp [skip_slashes, List.dropWhile, ih]
    · have hb : (c == '/') = false := by simp [hc]
      simp [skip_slashes, List.dropWhile, hc, hb]

theorem listenerMatch_isSome (lp : Listener) (m : Method) (url : List Char) :
    (listenerMatch m url lp).isSome = true ↔
      (lp.method m = true ∧ lp.url.isPrefixOf url = true ∧
        (url.drop lp.url.length = [] ∨
          (url.drop lp.url.length).head? = some '/')) := by
  unfold listenerMatch
  cases h1 : lp.url.isPrefixOf url with
  | false => simp [h1]
  | true =>
    cases h2 : lp.method m with
    | false => simp [h2]
    | true =>
      simp only [h1, h2, Bool.and_self, if_true]
      cases hd : url.drop lp.url.length with
      | nil => simp
      | cons c rest =>
        by_cases hc : c = '/'
        · subst hc
          cases hs : skip_slashes ('/' :: rest) with
          | nil => simp [hs]
          | cons a as => simp [hs]
        · simp [hc, Ne.symm hc]

theorem listenerMatch_arg (lp : Listener) (m : Method) (url : List Char)
    (o : Option (List Char)) (h : listenerMatch m url lp = some o) :
    o = (if ((url.drop lp.url.length).dropWhile (fun c => c == '/')) = []
         then none
         else some ((url.drop lp.url.length).dropWhile (fun c => c == '/'))) := by
  unfold listenerMatch at h
  cases h1 : lp.url.isPrefixOf url with
  | false => simp [h1] at h
  | true =>
    cases h2 : lp.method m with
    | false => simp [h1, h2] at h
    | true =>
      simp only [h1, h2, Bool.and_self, if_true] at h
      cases hd : url.drop lp.url.length with
      | nil =>
        rw [hd] at h
        simp at h
        simp [← h]
      | cons c rest =>
        rw [hd] at h
        by_cases hc : c = '/'
        · subst hc
          simp only [if_pos rfl] at h
          rw [← skip_slashes_eq_dropWhile]
          cases hs : skip_slashes ('/' :: rest) with
          | nil =>
            rw [hs] at h
            simp at h
            simp [skip_slashes] at hs
            simp [skip_slashes, hs, ← h]
          | cons a as =>
            rw [hs] at h
            simp at h
            simp [skip_slashes] at hs
            simp [skip_slashes, hs, ← h]
        · simp [hc] at h

theorem find_listener_cons_some (lp : Listener) (rest : List Listener)
    (m : Method) (url : List Char) (o : Option (List Char))
    (h : listenerMatch m url lp = some o) :
    find_listener m url (lp :: rest) = some (lp, o) := by
  simp [find_listener, h]

/-! ## C1 -/

/-- C1: a route matches iff the method mask includes the parsed method,
the request URL starts with the route's url, and the character after
that position is absent or a separator; the remainder handed to the
handler is the post-separator suffix with all consecutive separators
skipped and an empty remainder turned into the absent argument; in
particular `/foobar` never matches a route with url `/foo`, while `/foo`
and `/foo/` both match it with remainder absent. -/
theorem C1_route_matching :
    (∀ (lp : Listener) (m : Method) (url : List Char),
        (listenerMatch m url lp).isSome = true ↔
          (lp.method m = true ∧ lp.url.isPrefixOf url = true ∧
            (url.drop lp.url.length = [] ∨
              (url.drop lp.url.length).head? = some '/')))
    ∧ (∀ (lp : Listener) (m : Method) (url : List Char)
          (o : Option (List Char)), listenerMatch m url lp = some o →
          o = (if ((url.drop lp.url.length).dropWhile (fun c => c == '/')) = []
               then none
               else some ((url.drop lp.url.length).dropWhile (fun c => c == '/'))))
    ∧ (∀ (mask : Method → Bool) (cb : Nat) (m : Method),
          listenerMatch m (("/foobar").toList)
            (Listener.mk (("/foo").toList) mask cb) = none)
    ∧ (∀ (mask : Method → Bool) (cb : Nat) (m : Method), mask m = true →
          listenerMatch m (("/foo").toList)
            (Listener.mk (("/foo").toList) mask cb) = some none ∧
          listenerMatch m (("/foo/").toList)
            (Listener.mk (("/foo").toList) mask cb) = some none) := by
  refine ⟨listenerMatch_isSome, listenerMatch_arg, ?_, ?_⟩
  · intro mask cb m
    cases hm : mask m with
    | false => simp [listenerMatch, hm]
    | true =>
      simp only [listenerMatch, hm]
      decide
  · intro mask cb m hm
    constructor
    · simp only [listenerMatch, hm]
      decide
    · simp only [listenerMatch, hm]
      decide

/-- Witness for C1 at a concrete mask and method. -/
theorem C1_route_matching_witness :
    listenerMatch Method.GET (("/foo").toList)
      (Listener.mk (("/foo").toList) (fun _ => true) 0) = some none ∧
    listenerMatch Method.GET (("/foo/").toList)
      (Listener.mk (("/foo").toList) (fun _ => true) 0) = some none :=
  C1_route_matching.2.2.2 (fun _ => true) 0 Method.GET rfl

/-! ## C2 -/

/-- C2: registration prepends and matching walks the list from the
front, stopping at the first match, so the most recently registered
matching route wins: with R1 (url `/a`) registered and then R2
(url `/a/b`), a request for `/a/b/x` whose method lies in R2's mask
invokes R2's handler with remainder `x`, and the returned value names
exactly one invoked handler. -/
theorem C2_registration_precedence :
    (∀ (lp : Listener) (rest : List Listener) (m : Method) (url : List Char)
        (o : Option (List Char)), listenerMatch m url lp = some o →
        find_listener m url (lp :: rest) = some (lp, o))
    ∧ (∀ (reg : List Listener) (r1 r2 : Listener) (m : Method),
        r1.url = ("/a").toList → r2.url = ("/a/b").toList →
        r2.method m = true →
        find_listener m (("/a/b/x").toList)
          (http_register_path r2 (http_register_path r1 reg)) =
          some (r2, some (['x']))) := by
  constructor
  · exact find_listener_cons_some
  · intro reg r1 r2 m h1 h2 hm
    have hmatch : listenerMatch m (("/a/b/x").toList) r2 = some (some (['x'])) := by
      obtain ⟨u, mk, cb⟩ := r2
      simp only [Listener.method] at hm
      simp only [Listener.url] at h2
      subst h2
      simp only [listenerMatch, hm]
      decide
    exact find_listener_cons_some r2 (r1 :: reg) m (("/a/b/x").toList)
      (some (['x'])) hmatch

/-- Witness for C2 with two concrete routes over the empty registry. -/
theorem C2_registration_precedence_witness :
    find_listener Method.GET (("/a/b/x").toList)
      (http_register_path (Listener.mk (("/a/b").toList) (fun _ => true) 2)
        (http_register_path (Listener.mk (("/a").toList) (fun _ => true) 1) [])) =
      some (Listener.mk (("/a/b").toList) (fun _ => true) 2, some (['x'])) :=
  C2_registration_precedence.2 []
    (Listener.mk (("/a").toList) (fun _ => true) 1)
    (Listener.mk (("/a/b").toList) (fun _ => true) 2)
    Method.GET rfl rfl rfl

/-! ## check_auth lemmas -/

theorem check_auth_already (hdr : Option (List Char)) (tok : List Char)
    (ci : ConnectionInfo) (h : ci.authed = true) :
    check_auth hdr tok ci = (false, ci) := by
  simp [check_auth, h]

theorem check_auth_req_body (hdr : Option (List Char)) (tok : List Char)
    (ci : ConnectionInfo) :
    (check_auth hdr tok ci).2.req_body = ci.req_body := by
  rcases ci with ⟨rb, a⟩
  cases a <;> rcases hdr with _ | v <;> simp [check_auth] <;> split_ifs <;> rfl

theorem check_auth_fst_only_authed (hdr : Option (List Char)) (tok : List Char)
    (rb1 rb2 : Option (List Char)) (a : Bool) :
    (check_auth hdr tok ⟨rb1, a⟩).1 = (check_auth hdr tok ⟨rb2, a⟩).1 := by
  cases a <;> rcases hdr with _ | v <;> simp [check_auth] <;> split_ifs <;> rfl

theorem check_auth_fst_req_body (hdr : Option (List Char)) (tok : List Char)
    (ci : ConnectionInfo) (rb : Option (List Char)) :
    (check_auth hdr tok { ci with req_body := rb }).1 =
      (check_auth hdr tok ci).1 := by
  rcases ci with ⟨rb0, a⟩
  exact check_auth_fst_only_authed hdr tok rb rb0 a

theorem check_auth_fst_true (hdr : Option (List Char)) (tok : List Char)
    (ci : ConnectionInfo) (h : (check_auth hdr tok ci).1 = true) :
    (check_auth hdr tok ci).2 = ci := by
  rcases ci with ⟨rb, a⟩
  cases a <;> rcases hdr with _ | v <;> simp_all [check_auth] <;>
    split_ifs at h ⊢ <;> simp_all

theorem check_auth_fst_false_authed (hdr : Option (List Char)) (tok : List Char)
    (ci : ConnectionInfo) (h : (check_auth hdr tok ci).1 = false) :
    (check_auth hdr tok ci).2.authed = true := by
  rcases ci with ⟨rb, a⟩
  cases a <;> rcases hdr with _ | v <;> simp_all [check_auth] <;>
    split_ifs at h ⊢ <;> simp_all

theorem check_auth_authed_mono (hdr : Option (List Char)) (tok : List Char)
    (ci : ConnectionInfo) (h : ci.authed = true) :
    (check_auth hdr tok ci).2.authed = true := by
  rw [check_auth_already hdr tok ci h]
  exact h

/-! ## Branch lemmas for answer_to_connection -/

theorem atc_first (cfg : AgentConfig) (http : HttpPriv) (inp : CallInput) :
    answer_to_connection cfg http inp none =
      { action := CallAction.cont,
        con_cls := some (
          if (check_auth inp.authHeader cfg.auth_token
              { req_body := none, authed := false }).1 = false
          then { (check_auth inp.authHeader cfg.auth_token
                  { req_body := none, authed := false }).2 with req_body := some [] }
          else (check_auth inp.authHeader cfg.auth_token
                  { req_body := none, authed := false }).2),
        help_page := http.help_page, upload_remaining := inp.upload } := rfl

theorem atc_readonly (cfg : AgentConfig) (http : HttpPriv) (inp : CallInput)
    (ci : ConnectionInfo)
    (h : cfg.r_arg = true ∧ parse_method inp.methodStr ≠ Method.GET ∧
          parse_method inp.methodStr ≠ Method.OPTIONS) :
    answer_to_connection cfg http inp (some ci) =
      { action := CallAction.respond
          (http_reply_resp 405 (some (("Read-only mode").toList))),
        con_cls := some ci, help_page := http.help_page,
        upload_remaining := inp.upload } := by
  simp only [answer_to_connection]
  rw [if_pos h]

theorem atc_chunk (cfg : AgentConfig) (http : HttpPriv) (inp : CallInput)
    (ci : ConnectionInfo)
    (hro : ¬(cfg.r_arg = true ∧ parse_method inp.methodStr ≠ Method.GET ∧
          parse_method inp.methodStr ≠ Method.OPTIONS))
    (hup : inp.upload ≠ []) :
    answer_to_connection cfg http inp (some ci) =
      { action := CallAction.cont,
        con_cls := some { ci with
          req_body := ci.req_body.map (fun acc => acc ++ inp.upload) },
        help_page := http.help_page, upload_remaining := [] } := by
  simp only [answer_to_connection]
  rw [if_neg hro, if_pos hup]
  rcases ci with ⟨rb, a⟩
  cases rb <;> rfl

theorem atc_options (cfg : AgentConfig) (http : HttpPriv) (inp : CallInput)
    (ci : ConnectionInfo)
    (hup : inp.upload = [])
    (hm : parse_method inp.methodStr = Method.OPTIONS) :
    answer_to_connection cfg http inp (some ci) =
      { action := CallAction.respond (http_reply_resp 200 none),
        con_cls := some { ci with
          req_body := ci.req_body.map (fun acc => acc ++ [Char.ofNat 0]) },
        help_page := http.help_page, upload_remaining := [] } := by
  have hro : ¬(cfg.r_arg = true ∧ parse_method inp.methodStr ≠ Method.GET ∧
      parse_method inp.methodStr ≠ Method.OPTIONS) := by
    rintro ⟨-, -, h3⟩
    exact h3 hm
  simp only [answer_to_connection]
  rw [if_neg hro, if_neg (by simp [hup])]
  rw [if_pos hm]
  rcases ci with ⟨rb, a⟩
  cases rb <;> rfl

theorem atc_auth_required (cfg : AgentConfig) (http : HttpPriv) (inp : CallInput)
    (ci : ConnectionInfo)
    (hup : inp.upload = [])
    (hm : parse_method inp.methodStr ≠ Method.OPTIONS)
    (hro : ¬(cfg.r_arg = true ∧ parse_method inp.methodStr ≠ Method.GET ∧
          parse_method inp.methodStr ≠ Method.OPTIONS))
    (hauth : (check_auth inp.authHeader cfg.auth_token ci).1 = true) :
    answer_to_connection cfg http inp (some ci) =
      { action := CallAction.respond send_auth_resp,
        con_cls := some { ci with
          req_body := ci.req_body.map (fun acc => acc ++ [Char.ofNat 0]) },
        help_page := http.help_page, upload_remaining := [] } := by
  simp only [answer_to_connection]
  rw [if_neg hro, if_neg (by simp [hup]), if_neg hm]
  rcases ci with ⟨rb, a⟩
  cases rb with
  | none =>
    dsimp only
    rw [if_pos hauth, check_auth_fst_true _ _ _ hauth]
    simp
  | some acc =>
    dsimp only
    have h2 : (check_auth inp.authHeader cfg.auth_token
        ⟨some (acc ++ [Char.ofNat 0]), a⟩).1 = true := by
      rw [check_auth_fst_only_authed inp.authHeader cfg.auth_token _ (some acc) a]
      exact hauth
    rw [if_pos h2, check_auth_fst_true _ _ _ h2]
    simp

theorem atc_invoke (cfg : AgentConfig) (http : HttpPriv) (inp : CallInput)
    (ci : ConnectionInfo)
    (hup : inp.upload = [])
    (hm : parse_method inp.methodStr ≠ Method.OPTIONS)
    (hro : ¬(cfg.r_arg = true ∧ parse_method inp.methodStr ≠ Method.GET ∧
          parse_method inp.methodStr ≠ Method.OPTIONS))
    (hauth : (check_auth inp.authHeader cfg.auth_token ci).1 = false)
    (lp : Listener) (arg : Option (List Char))
    (hfind : find_listener (parse_method inp.methodStr) inp.url
        http.listener = some (lp, arg)) :
    answer_to_connection cfg http inp (some ci) =
      { action := CallAction.invoke lp (parse_method inp.methodStr) inp.url
          (ci.req_body.map (fun acc => acc ++ [Char.ofNat 0]))
          ((ci.req_body.map List.length).getD 0) arg,
        con_cls := some (check_auth inp.authHeader cfg.auth_token
          { ci with req_body :=
              ci.req_body.map (fun acc => acc ++ [Char.ofNat 0]) }).2,
        help_page := http.help_page, upload_remaining := [] } := by
  simp only [answer_to_connection]
  rw [if_neg hro, if_neg (by simp [hup]), if_neg hm]
  rcases ci with ⟨rb, a⟩
  cases rb with
  | none =>
    dsimp only
    rw [if_neg (by simp [hauth]), hfind]
    simp
  | some acc =>
    dsimp only
    have h2 : (check_auth inp.authHeader cfg.auth_token
        ⟨some (acc ++ [Char.ofNat 0]), a⟩).1 = false := by
      rw [check_auth_fst_only_authed inp.authHeader cfg.auth_token _ (some acc) a]
      exact hauth
    rw [if_neg (by simp [h2]), hfind]
    simp

theorem atc_help (cfg : AgentConfig) (http : HttpPriv) (inp : CallInput)
    (ci : ConnectionInfo)
    (hup : inp.upload = [])
    (hm : parse_method inp.methodStr = Method.GET)
    (hurl : inp.url = ("/").toList)
    (hauth : (check_auth inp.authHeader cfg.auth_token ci).1 = false)
    (hfind : find_listener (parse_method inp.methodStr) inp.url
        http.listener = none) :
    answer_to_connection cfg http inp (some ci) =
      { action := CallAction.respond (http_reply_resp 200
          (some (http.help_page.getD (make_help http.listener)))),
        con_cls := some (check_auth inp.authHeader cfg.auth_token
          { ci with req_body :=
              ci.req_body.map (fun acc => acc ++ [Char.ofNat 0]) }).2,
        help_page := some (http.help_page.getD (make_help http.listener)),
        upload_remaining := [] } := by
  have hro : ¬(cfg.r_arg = true ∧ parse_method inp.methodStr ≠ Method.GET ∧
      parse_method inp.methodStr ≠ Method.OPTIONS) := by
    rintro ⟨-, h2, -⟩
    exact h2 hm
  have hmo : parse_method inp.methodStr ≠ Method.OPTIONS := by
    rw [hm]
    intro h
    exact Method.noConfusion h
  simp only [answer_to_connection]
  rw [if_neg hro, if_neg (by simp [hup]), if_neg hmo]
  rcases ci with ⟨rb, a⟩
  cases rb with
  | none =>
    dsimp only
    rw [if_neg (by simp [hauth]), hfind]
    dsimp only
    rw [if_pos ⟨hm, hurl⟩]
    cases http.help_page <;> simp
  | some acc =>
    dsimp only
    have h2 : (check_auth inp.authHeader cfg.auth_token
        ⟨some (acc ++ [Char.ofNat 0]), a⟩).1 = false := by
      rw [check_auth_fst_only_authed inp.authHeader cfg.auth_token _ (some acc) a]
      exact hauth
    rw [if_neg (by simp [h2]), hfind]
    dsimp only
    rw [if_pos ⟨hm, hurl⟩]
    cases http.help_page <;> simp

theorem atc_500 (cfg : AgentConfig) (http : HttpPriv) (inp : CallInput)
    (ci : ConnectionInfo)
    (hup : inp.upload = [])
    (hm : parse_method inp.methodStr ≠ Method.OPTIONS)
    (hro : ¬(cfg.r_arg = true ∧ parse_method inp.methodStr ≠ Method.GET ∧
          parse_method inp.methodStr ≠ Method.OPTIONS))
    (hauth : (check_auth inp.authHeader cfg.auth_token ci).1 = false)
    (hfind : find_listener (parse_method inp.methodStr) inp.url
        http.listener = none)
    (hnot : ¬(parse_method inp.methodStr = Method.GET ∧
        inp.url = ("/").toList)) :
    answer_to_connection cfg http inp (some ci) =
      { action := CallAction.respond
          (http_reply_resp 500 (some (("Failed").toList))),
        con_cls := some (check_auth inp.authHeader cfg.auth_token
          { ci with req_body :=
              ci.req_body.map (fun acc => acc ++ [Char.ofNat 0]) }).2,
        help_page := http.help_page, upload_remaining := [] } := by
  simp only [answer_to_connection]
  rw [if_neg hro, if_neg (by simp [hup]), if_neg hm]
  rcases ci with ⟨rb, a⟩
  cases rb with
  | none =>
    dsimp only
    rw [if_neg (by simp [hauth]), hfind]
    dsimp only
    rw [if_neg hnot]
    simp
  | some acc =>
    dsimp only
    have h2 : (check_auth inp.authHeader cfg.auth_token
        ⟨some (acc ++ [Char.ofNat 0]), a⟩).1 = false := by
      rw [check_auth_fst_only_authed inp.authHeader cfg.auth_token _ (some acc) a]
      exact hauth
    rw [if_neg (by simp [h2]), hfind]
    dsimp only
    rw [if_neg hnot]
    simp

theorem respond_ne_of_status {r1 r2 : HttpResponse} (h : r1.status ≠ r2.status) :
    CallAction.respond r1 ≠ CallAction.respond r2 := by
  intro he
  injection he with h2
  exact h (by rw [h2])

theorem authed_after_finalize_check (hdr : Option (List Char)) (tok : List Char)
    (ci : ConnectionInfo) (rb : Option (List Char)) (h : ci.authed = true) :
    (check_auth hdr tok { ci with req_body := rb }).2.authed = true := by
  apply check_auth_authed_mono
  exact h

/-! ## C3 -/

/-- C3 counterexample: in read-only mode, a body-chunk call with method
POST (state exists, accumulator present, one unconsumed byte) is
answered 405 "Read-only mode" instead of continuing, the offered byte is
not reported consumed, and nothing is appended to the accumulator — the
read-only gate runs before the body-chunk branch. -/
theorem C3_body_chunk_counterexample :
    (answer_to_connection ⟨true, ("secret").toList⟩ ⟨none, []⟩
        ⟨("/x").toList, ("POST").toList, none, ['b']⟩
        (some ⟨some [], true⟩)).action =
      CallAction.respond (http_reply_resp 405 (some (("Read-only mode").toList))) ∧
    (answer_to_connection ⟨true, ("secret").toList⟩ ⟨none, []⟩
        ⟨("/x").toList, ("POST").toList, none, ['b']⟩
        (some ⟨some [], true⟩)).upload_remaining = ['b'] ∧
    (answer_to_connection ⟨true, ("secret").toList⟩ ⟨none, []⟩
        ⟨("/x").toList, ("POST").toList, none, ['b']⟩
        (some ⟨some [], true⟩)).con_cls = some ⟨some [], true⟩ := by
  rw [atc_readonly _ _ _ _ (by decide)]
  exact ⟨rfl, rfl, rfl⟩

/-- C3 (amended): for every body-chunk call that the read-only gate does
not reject first (read-only flag unset, or the parsed method GET or
OPTIONS), the dispatcher appends the offered bytes to the body
accumulator when one exists, reports all offered bytes as consumed, and
returns "continue" with no response — regardless of request method; but
in read-only mode a body-chunk call whose method is neither GET nor
OPTIONS is answered 405 before the chunk is examined. -/
theorem C3_body_chunk_amended :
    ∀ (cfg : AgentConfig) (http : HttpPriv) (inp : CallInput)
      (ci : ConnectionInfo),
      inp.upload ≠ [] →
      ¬(cfg.r_arg = true ∧ parse_method inp.methodStr ≠ Method.GET ∧
          parse_method inp.methodStr ≠ Method.OPTIONS) →
      (answer_to_connection cfg http inp (some ci)).action = CallAction.cont ∧
      (answer_to_connection cfg http inp (some ci)).upload_remaining = [] ∧
      (answer_to_connection cfg http inp (some ci)).con_cls =
        some { ci with req_body :=
          ci.req_body.map (fun acc => acc ++ inp.upload) } := by
  intro cfg http inp ci hup hro
  rw [atc_chunk cfg http inp ci hro hup]
  exact ⟨rfl, rfl, rfl⟩

/-- Witness for C3's amended theorem: a POST chunk outside read-only
mode is appended and consumed. -/
theorem C3_body_chunk_amended_witness :
    (answer_to_connection ⟨false, ("secret").toList⟩ ⟨none, []⟩
        ⟨("/x").toList, ("POST").toList, none, ("ab").toList⟩
        (some ⟨some [], true⟩)).action = CallAction.cont ∧
    (answer_to_connection ⟨false, ("secret").toList⟩ ⟨none, []⟩
        ⟨("/x").toList, ("POST").toList, none, ("ab").toList⟩
        (some ⟨some [], true⟩)).upload_remaining = [] ∧
    (answer_to_connection ⟨false, ("secret").toList⟩ ⟨none, []⟩
        ⟨("/x").toList, ("POST").toList, none, ("ab").toList⟩
        (some ⟨some [], true⟩)).con_cls =
      some { req_body := (some []).map (fun acc => acc ++ ("ab").toList),
             authed := true } :=
  C3_body_chunk_amended ⟨false, ("secret").toList⟩ ⟨none, []⟩
    ⟨("/x").toList, ("POST").toList, none, ("ab").toList⟩
    ⟨some [], true⟩ (by decide) (by decide)

/-! ## C4 -/

/-- C4: the `authed` flag is monotone — `check_auth` short-circuits on an
already-authenticated state, returning it unchanged and without reading
the header, every dispatcher call on an authenticated state leaves an
authenticated state in `*con_cls`, and a later call over the same
connection with no Authorization header is never answered with the 401
auth response. -/
theorem C4_auth_monotone :
    (∀ (hdr hdr2 : Option (List Char)) (tok : List Char)
        (ci : ConnectionInfo), ci.authed = true →
        check_auth hdr tok ci = (false, ci) ∧
        check_auth hdr tok ci = check_auth hdr2 tok ci)
    ∧ (∀ (cfg : AgentConfig) (http : HttpPriv) (inp : CallInput)
          (ci ci2 : ConnectionInfo), ci.authed = true →
          (answer_to_connection cfg http inp (some ci)).con_cls = some ci2 →
          ci2.authed = true)
    ∧ (∀ (cfg : AgentConfig) (http : HttpPriv) (url ms : List Char)
          (ci : ConnectionInfo), ci.authed = true →
          (answer_to_connection cfg http ⟨url, ms, none, []⟩ (some ci)).action ≠
            CallAction.respond send_auth_resp) := by
  refine ⟨?_, ?_, ?_⟩
  · intro hdr hdr2 tok ci h
    rw [check_auth_already hdr tok ci h, check_auth_already hdr2 tok ci h]
    exact ⟨rfl, rfl⟩
  · intro cfg http inp ci ci2 hci hout
    by_cases hro : cfg.r_arg = true ∧ parse_method inp.methodStr ≠ Method.GET ∧
        parse_method inp.methodStr ≠ Method.OPTIONS
    · rw [atc_readonly cfg http inp ci hro] at hout
      simp only [CallOutput.mk.injEq] at hout
      injection hout with h2
      rw [← h2]
      exact hci
    · by_cases hup : inp.upload = []
      · by_cases hopt : parse_method inp.methodStr = Method.OPTIONS
        · rw [atc_options cfg http inp ci hup hopt] at hout
          injection hout with h2
          rw [← h2]
          exact hci
        · have hreq : (check_auth inp.authHeader cfg.auth_token ci).1 = false := by
            rw [check_auth_already _ _ _ hci]
          cases hfind : find_listener (parse_method inp.methodStr) inp.url
              http.listener with
          | some p =>
            rw [atc_invoke cfg http inp ci hup hopt hro hreq p.1 p.2
              (by rw [hfind])] at hout
            injection hout with h2
            rw [← h2]
            exact authed_after_finalize_check _ _ _ _ hci
          | none =>
            by_cases hroot : parse_method inp.methodStr = Method.GET ∧
                inp.url = ("/").toList
            · rw [atc_help cfg http inp ci hup hroot.1 hroot.2 hreq hfind] at hout
              injection hout with h2
              rw [← h2]
              exact authed_after_finalize_check _ _ _ _ hci
            · rw [atc_500 cfg http inp ci hup hopt hro hreq hfind hroot] at hout
              injection hout with h2
              rw [← h2]
              exact authed_after_finalize_check _ _ _ _ hci
      · rw [atc_chunk cfg http inp ci hro hup] at hout
        injection hout with h2
        rw [← h2]
        exact hci
  · intro cfg http url ms ci hci
    by_cases hro : cfg.r_arg = true ∧
        parse_method (CallInput.mk url ms none []).methodStr ≠ Method.GET ∧
        parse_method (CallInput.mk url ms none []).methodStr ≠ Method.OPTIONS
    · rw [atc_readonly cfg http _ ci hro]
      exact respond_ne_of_status (by decide)
    · by_cases hopt : parse_method ms = Method.OPTIONS
      · rw [atc_options cfg http _ ci rfl hopt]
        exact respond_ne_of_status (by decide)
      · have hreq : (check_auth (none : Option (List Char))
            cfg.auth_token ci).1 = false := by
          rw [check_auth_already _ _ _ hci]
        cases hfind : find_listener (parse_method ms) url http.listener with
        | some p =>
          rw [atc_invoke cfg http _ ci rfl hopt hro hreq p.1 p.2 (by rw [hfind])]
          intro h
          exact CallAction.noConfusion h
        | none =>
          by_cases hroot : parse_method ms = Method.GET ∧ url = ("/").toList
          · rw [atc_help cfg http _ ci rfl hroot.1 hroot.2 hreq hfind]
            exact respond_ne_of_status (by
              simp [http_reply_resp, send_auth_resp, http_mkresp, http_add_header])
          · rw [atc_500 cfg http _ ci rfl hopt hro hreq hfind hroot]
            exact respond_ne_of_status (by decide)

/-- Witness for C4 at an authenticated state over an empty registry. -/
theorem C4_auth_monotone_witness :
    check_auth none (("secret").toList) ⟨none, true⟩ = (false, ⟨none, true⟩) ∧
    check_auth none (("secret").toList) ⟨none, true⟩ =
      check_auth (some (("x").toList)) (("secret").toList) ⟨none, true⟩ :=
  C4_auth_monotone.1 none (some (("x").toList)) (("secret").toList)
    ⟨none, true⟩ rfl

/-! ## C5 -/

/-- C5: a finalize call whose parsed method is OPTIONS is answered 200
with an empty body (a `NULL` reply body) before the auth gate runs: the
conclusion holds for every configuration (the read-only gate exempts
OPTIONS), every Authorization header including an absent one, and every
connection state. -/
theorem C5_options_preflight :
    ∀ (cfg : AgentConfig) (http : HttpPriv) (inp : CallInput)
      (ci : ConnectionInfo),
      parse_method inp.methodStr = Method.OPTIONS →
      inp.upload = [] →
      (answer_to_connection cfg http inp (some ci)).action =
        CallAction.respond (http_reply_resp 200 none) := by
  intro cfg http inp ci hm hup
  rw [atc_options cfg http inp ci hup hm]

/-- Witness for C5: OPTIONS with no Authorization header, unauthenticated
state, read-only mode on. -/
theorem C5_options_preflight_witness :
    (answer_to_connection ⟨true, ("secret").toList⟩ ⟨none, []⟩
        ⟨("/any/path").toList, ("OPTIONS").toList, none, []⟩
        (some ⟨none, false⟩)).action =
      CallAction.respond (http_reply_resp 200 none) :=
  C5_options_preflight ⟨true, ("secret").toList⟩ ⟨none, []⟩
    ⟨("/any/path").toList, ("OPTIONS").toList, none, []⟩
    ⟨none, false⟩ (by decide) rfl

/-! ## C6 -/

/-- C6: a non-OPTIONS finalize call that the read-only gate does not
reject and for which the auth gate reports authentication required is
answered with the 401 response, whose body is the explanatory text and
whose stored headers contain `WWW-Authenticate: Basic
realm=varnish-agent`; no route matching happens — no handler is
invoked. -/
theorem C6_auth_required_401 :
    ∀ (cfg : AgentConfig) (http : HttpPriv) (inp : CallInput)
      (ci : ConnectionInfo),
      inp.upload = [] →
      parse_method inp.methodStr ≠ Method.OPTIONS →
      (cfg.r_arg = true → parse_method inp.methodStr = Method.GET) →
      (check_auth inp.authHeader cfg.auth_token ci).1 = true →
      (answer_to_connection cfg http inp (some ci)).action =
        CallAction.respond send_auth_resp ∧
      send_auth_resp.status = 401 ∧
      send_auth_resp.body = some auth_response_body ∧
      ((("WWW-Authenticate").toList, ("Basic realm=varnish-agent").toList) ∈
        send_auth_resp.headers) ∧
      (∀ (lp : Listener) (m : Method) (u : List Char) (b : Option (List Char))
          (bl : Nat) (a : Option (List Char)),
        (answer_to_connection cfg http inp (some ci)).action ≠
          CallAction.invoke lp m u b bl a) := by
  intro cfg http inp ci hup hm hrg hauth
  have hro : ¬(cfg.r_arg = true ∧ parse_method inp.methodStr ≠ Method.GET ∧
      parse_method inp.methodStr ≠ Method.OPTIONS) := by
    rintro ⟨h1, h2, -⟩
    exact h2 (hrg h1)
  rw [atc_auth_required cfg http inp ci hup hm hro hauth]
  refine ⟨rfl, rfl, rfl, ?_, ?_⟩
  · simp [send_auth_resp, http_add_header, http_mkresp]
  · intro lp m u b bl a h
    exact CallAction.noConfusion h

/-- Witness for C6: a GET with no Authorization header against an
unauthenticated state. -/
theorem C6_auth_required_401_witness :
    (answer_to_connection ⟨false, ("secret").toList⟩ ⟨none, []⟩
        ⟨("/protected").toList, ("GET").toList, none, []⟩
        (some ⟨none, false⟩)).action = CallAction.respond send_auth_resp :=
  (C6_auth_required_401 ⟨false, ("secret").toList⟩ ⟨none, []⟩
    ⟨("/protected").toList, ("GET").toList, none, []⟩
    ⟨none, false⟩ rfl (by decide) (by intro h; exact Bool.noConfusion h)
    (by decide)).1

/-! ## Token comparison helpers -/

theorem basic_marker_take (tok : List Char) :
    ((("Basic ").toList ++ tok).take 6) = ("Basic ").toList := by
  rw [show (6 : Nat) = (("Basic ").toList).length from rfl]
  exact List.take_left _ _

theorem basic_marker_drop (tok : List Char) :
    ((("Basic ").toList ++ tok).drop 6) = tok := by
  rw [show (6 : Nat) = (("Basic ").toList).length from rfl]
  exact List.drop_left _ _

/-! ## C10 -/

/-- C10: on a not-yet-authenticated state, `check_auth` sets the
`authed` flag and reports auth satisfied exactly when the Authorization
header is the six bytes of the case-sensitive marker `Basic ` (one
space) immediately followed by the configured token, byte for byte: an
absent header, any other scheme spelling, extra whitespace, or a
differing token leaves the state unauthenticated. -/
theorem C10_basic_token_exact :
    ∀ (hdr : Option (List Char)) (tok : List Char) (ci : ConnectionInfo),
      ci.authed = false →
      (((check_auth hdr tok ci).2.authed = true ∧
          (check_auth hdr tok ci).1 = false) ↔
        hdr = some ((("Basic ").toList) ++ tok)) := by
  intro hdr tok ci hci
  rcases hdr with _ | auth
  · simp [check_auth, hci]
  · constructor
    · rintro ⟨h1, -⟩
      by_cases ht : auth.take 6 = ("Basic ").toList
      · by_cases hd : auth.drop 6 = tok
        · have hsplit : auth = auth.take 6 ++ auth.drop 6 :=
            (List.take_append_drop 6 auth).symm
          rw [ht, hd] at hsplit
          rw [hsplit]
        · simp [check_auth, hci, ht, hd] at h1
      · have ht2 : ¬List.take 6 auth = ['B', 'a', 's', 'i', 'c', ' '] := ht
        simp [check_auth, hci, ht2] at h1
    · intro he
      injection he with he2
      subst he2
      simp [check_auth, hci, basic_marker_take, basic_marker_drop]

/-- Witness for C10: the exact header authenticates; the lowercase
scheme does not. -/
theorem C10_basic_token_exact_witness :
    ((check_auth (some (("Basic ").toList ++ ("secret").toList))
          (("secret").toList) ⟨none, false⟩).2.authed = true ∧
        (check_auth (some (("Basic ").toList ++ ("secret").toList))
          (("secret").toList) ⟨none, false⟩).1 = false) ↔
      some ((("Basic ").toList) ++ ("secret").toList) =
        some ((("Basic ").toList) ++ ("secret").toList) :=
  C10_basic_token_exact (some (("Basic ").toList ++ ("secret").toList))
    (("secret").toList) ⟨none, false⟩ rfl

theorem check_auth_valid_fresh (tok : List Char) :
    check_auth (some ((("Basic ").toList) ++ tok)) tok ⟨none, false⟩ =
      (false, { req_body := none, authed := true }) := by
  unfold check_auth
  rw [if_neg (by simp)]
  dsimp only
  rw [if_pos (basic_marker_take tok), if_pos (basic_marker_drop tok)]

theorem HttpPriv_eta (h : HttpPriv) :
    (HttpPriv.mk h.help_page h.listener) = h := rfl

/-! ## C8 -/

/-- C8: an authenticated, non-OPTIONS finalize call matching no route is
served the help page exactly when the method is GET and the URL is
exactly `/` — the page is the cached one when the cache is set, else
`make_help` of the registry, which is then stored in the cache — and any
other method/URL combination is answered 500 "Failed" with the cache
untouched; with zero registered routes the generated page is the fixed
preamble followed by the final newline and no route lines. -/
theorem C8_fallback_dispatch :
    (∀ (cfg : AgentConfig) (http : HttpPriv) (inp : CallInput)
        (ci : ConnectionInfo),
        inp.upload = [] → ci.authed = true →
        (cfg.r_arg = true → parse_method inp.methodStr = Method.GET) →
        parse_method inp.methodStr ≠ Method.OPTIONS →
        find_listener (parse_method inp.methodStr) inp.url http.listener = none →
        ((parse_method inp.methodStr = Method.GET ∧ inp.url = ("/").toList →
            (answer_to_connection cfg http inp (some ci)).action =
              CallAction.respond (http_reply_resp 200
                (some (http.help_page.getD (make_help http.listener)))) ∧
            (answer_to_connection cfg http inp (some ci)).help_page =
              some (http.help_page.getD (make_help http.listener)))
          ∧ (¬(parse_method inp.methodStr = Method.GET ∧
                inp.url = ("/").toList) →
            (answer_to_connection cfg http inp (some ci)).action =
              CallAction.respond (http_reply_resp 500
                (some (("Failed").toList))) ∧
            (answer_to_connection cfg http inp (some ci)).help_page =
              http.help_page)))
    ∧ make_help [] = HELP_TEXT.toList ++ ['\n'] := by
  constructor
  · intro cfg http inp ci hup hci hrg hmo hfind
    have hauth : (check_auth inp.authHeader cfg.auth_token ci).1 = false := by
      rw [check_auth_already _ _ _ hci]
    constructor
    · rintro ⟨hg, hu⟩
      rw [atc_help cfg http inp ci hup hg hu hauth hfind]
      exact ⟨rfl, rfl⟩
    · intro hnot
      have hro : ¬(cfg.r_arg = true ∧ parse_method inp.methodStr ≠ Method.GET ∧
          parse_method inp.methodStr ≠ Method.OPTIONS) := by
        rintro ⟨h1, h2, -⟩
        exact h2 (hrg h1)
      rw [atc_500 cfg http inp ci hup hmo hro hauth hfind hnot]
      exact ⟨rfl, rfl⟩
  · simp [make_help]

/-- Witness for C8: GET `/` over an empty registry and an unset cache. -/
theorem C8_fallback_dispatch_witness :
    (answer_to_connection ⟨false, ("s").toList⟩ ⟨none, []⟩
        ⟨("/").toList, ("GET").toList, none, []⟩ (some ⟨none, true⟩)).action =
      CallAction.respond (http_reply_resp 200
        (some ((none : Option (List Char)).getD (make_help [])))) ∧
    (answer_to_connection ⟨false, ("s").toList⟩ ⟨none, []⟩
        ⟨("/").toList, ("GET").toList, none, []⟩ (some ⟨none, true⟩)).help_page =
      some ((none : Option (List Char)).getD (make_help [])) :=
  (C8_fallback_dispatch.1 ⟨false, ("s").toList⟩ ⟨none, []⟩
      ⟨("/").toList, ("GET").toList, none, []⟩ ⟨none, true⟩ rfl rfl
      (fun h => absurd h (by decide)) (by decide) rfl).1 ⟨by decide, rfl⟩

/-! ## C9 -/

/-- C9 counterexample: after adding header A=1 and then B=2, the stored
list holds B first and the emission order is B then A — not the
addition order the claim states. -/
theorem C9_add_header_counterexample :
    (http_add_header (http_add_header (http_mkresp 200 none)
        (("A").toList) (("1").toList)) (("B").toList) (("2").toList)).headers =
      [((("B").toList), (("2").toList)), ((("A").toList), (("1").toList))] ∧
    send_response_headers (http_add_header (http_add_header (http_mkresp 200 none)
        (("A").toList) (("1").toList)) (("B").toList) (("2").toList)) none ≠
      ((("A").toList), (("1").toList)) ::
        ((("B").toList), (("2").toList)) :: cors_headers none :=
  ⟨rfl, by decide⟩

/-- C9 (amended): `http_add_header` prepends the pair to the front of
the response's header list and `send_response` emits stored headers
front to back (then the CORS headers), so headers are emitted in reverse
order of addition; duplicate keys are permitted and never deduplicated —
after any sequence of additions every added pair appears, in reversed
addition order, before the original headers. -/
theorem C9_add_header_order :
    (∀ (resp : HttpResponse) (k v : List Char),
        (http_add_header resp k v).headers = (k, v) :: resp.headers)
    ∧ (∀ (resp : HttpResponse) (origin : Option (List Char)),
        send_response_headers resp origin = resp.headers ++ cors_headers origin)
    ∧ (∀ (resp : HttpResponse) (adds : List (List Char × List Char)),
        (adds.foldl (fun r kv => http_add_header r kv.1 kv.2) resp).headers =
          adds.reverse ++ resp.headers) := by
  refine ⟨fun _ _ _ => rfl, fun _ _ => rfl, ?_⟩
  intro resp adds
  induction adds generalizing resp with
  | nil => simp
  | cons kv rest ih =>
    simp only [List.foldl_cons, List.reverse_cons, List.append_assoc]
    rw [ih (http_add_header resp kv.1 kv.2)]
    simp [http_add_header]

/-! ## C7 -/

/-- C7: when the body accumulator exists, each chunk callback appends
the offered bytes at the end, the finalize call hands the matched
handler the accumulated bytes terminated by a NUL byte with `bodylen`
the byte count excluding the terminator, and concretely a connection
whose first call authenticates (allocating the accumulator) and then
receives chunks "ab", "cd", "ef" ends with accumulator "abcdef" and
invokes the matched handler with body "abcdef" plus the terminator and
bodylen 6. -/
theorem C7_body_assembly :
    (∀ (cfg : AgentConfig) (http : HttpPriv) (inp : CallInput)
        (ci : ConnectionInfo) (acc : List Char),
        ci.req_body = some acc → inp.upload ≠ [] →
        ¬(cfg.r_arg = true ∧ parse_method inp.methodStr ≠ Method.GET ∧
            parse_method inp.methodStr ≠ Method.OPTIONS) →
        (answer_to_connection cfg http inp (some ci)).con_cls =
          some { ci with req_body := some (acc ++ inp.upload) } ∧
        (answer_to_connection cfg http inp (some ci)).upload_remaining = [])
    ∧ (∀ (cfg : AgentConfig) (http : HttpPriv) (inp : CallInput)
          (ci : ConnectionInfo) (acc : List Char) (lp : Listener)
          (arg : Option (List Char)),
        ci.req_body = some acc → ci.authed = true → inp.upload = [] →
        parse_method inp.methodStr ≠ Method.OPTIONS →
        ¬(cfg.r_arg = true ∧ parse_method inp.methodStr ≠ Method.GET ∧
            parse_method inp.methodStr ≠ Method.OPTIONS) →
        find_listener (parse_method inp.methodStr) inp.url http.listener =
          some (lp, arg) →
        (answer_to_connection cfg http inp (some ci)).action =
          CallAction.invoke lp (parse_method inp.methodStr) inp.url
            (some (acc ++ [Char.ofNat 0])) acc.length arg)
    ∧ (∀ (cfg : AgentConfig) (http : HttpPriv) (url ms : List Char)
          (lp : Listener) (arg : Option (List Char)),
        cfg.r_arg = false →
        parse_method ms ≠ Method.OPTIONS →
        find_listener (parse_method ms) url http.listener = some (lp, arg) →
        (run_calls cfg
            [⟨url, ms, some ((("Basic ").toList) ++ cfg.auth_token), []⟩,
             ⟨url, ms, some ((("Basic ").toList) ++ cfg.auth_token), ("ab").toList⟩,
             ⟨url, ms, some ((("Basic ").toList) ++ cfg.auth_token), ("cd").toList⟩,
             ⟨url, ms, some ((("Basic ").toList) ++ cfg.auth_token), ("ef").toList⟩]
            http none).2 = some ⟨some (("abcdef").toList), true⟩ ∧
        (answer_to_connection cfg
            (run_calls cfg
              [⟨url, ms, some ((("Basic ").toList) ++ cfg.auth_token), []⟩,
               ⟨url, ms, some ((("Basic ").toList) ++ cfg.auth_token), ("ab").toList⟩,
               ⟨url, ms, some ((("Basic ").toList) ++ cfg.auth_token), ("cd").toList⟩,
               ⟨url, ms, some ((("Basic ").toList) ++ cfg.auth_token), ("ef").toList⟩]
              http none).1
            ⟨url, ms, some ((("Basic ").toList) ++ cfg.auth_token), []⟩
            (run_calls cfg
              [⟨url, ms, some ((("Basic ").toList) ++ cfg.auth_token), []⟩,
               ⟨url, ms, some ((("Basic ").toList) ++ cfg.auth_token), ("ab").toList⟩,
               ⟨url, ms, some ((("Basic ").toList) ++ cfg.auth_token), ("cd").toList⟩,
               ⟨url, ms, some ((("Basic ").toList) ++ cfg.auth_token), ("ef").toList⟩]
              http none).2).action =
          CallAction.invoke lp (parse_method ms) url
            (some (("abcdef").toList ++ [Char.ofNat 0])) 6 arg) := by
  refine ⟨?_, ?_, ?_⟩
  · intro cfg http inp ci acc hacc hup hro
    rw [atc_chunk cfg http inp ci hro hup]
    refine ⟨?_, rfl⟩
    rw [hacc]
    rfl
  · intro cfg http inp ci acc lp arg hacc hci hup hmo hro hfind
    have hauth : (check_auth inp.authHeader cfg.auth_token ci).1 = false := by
      rw [check_auth_already _ _ _ hci]
    rw [atc_invoke cfg http inp ci hup hmo hro hauth lp arg hfind]
    rw [hacc]
    rfl
  · intro cfg http url ms lp arg hr hmo hfind
    have hro : ¬(cfg.r_arg = true ∧ parse_method ms ≠ Method.GET ∧
        parse_method ms ≠ Method.OPTIONS) := by
      rintro ⟨h1, -, -⟩
      rw [hr] at h1
      exact Bool.noConfusion h1
    have h1 : answer_to_connection cfg http
        ⟨url, ms, some ((("Basic ").toList) ++ cfg.auth_token), []⟩ none =
        { action := CallAction.cont, con_cls := some ⟨some [], true⟩,
          help_page := http.help_page, upload_remaining := [] } := by
      rw [atc_first]
      dsimp only
      rw [check_auth_valid_fresh]
      rfl
    have h2 : answer_to_connection cfg http
        ⟨url, ms, some ((("Basic ").toList) ++ cfg.auth_token), ("ab").toList⟩
        (some ⟨some [], true⟩) =
        { action := CallAction.cont,
          con_cls := some ⟨some (("ab").toList), true⟩,
          help_page := http.help_page, upload_remaining := [] } := by
      rw [atc_chunk cfg http _ _ hro (show (("ab").toList) ≠ [] from by decide)]
      rfl
    have h3 : answer_to_connection cfg http
        ⟨url, ms, some ((("Basic ").toList) ++ cfg.auth_token), ("cd").toList⟩
        (some ⟨some (("ab").toList), true⟩) =
        { action := CallAction.cont,
          con_cls := some ⟨some (("abcd").toList), true⟩,
          help_page := http.help_page, upload_remaining := [] } := by
      rw [atc_chunk cfg http _ _ hro (show (("cd").toList) ≠ [] from by decide)]
      rfl
    have h4 : answer_to_connection cfg http
        ⟨url, ms, some ((("Basic ").toList) ++ cfg.auth_token), ("ef").toList⟩
        (some ⟨some (("abcd").toList), true⟩) =
        { action := CallAction.cont,
          con_cls := some ⟨some (("abcdef").toList), true⟩,
          help_page := http.help_page, upload_remaining := [] } := by
      rw [atc_chunk cfg http _ _ hro (show (("ef").toList) ≠ [] from by decide)]
      rfl
    have hrun : run_calls cfg
        [⟨url, ms, some ((("Basic ").toList) ++ cfg.auth_token), []⟩,
         ⟨url, ms, some ((("Basic ").toList) ++ cfg.auth_token), ("ab").toList⟩,
         ⟨url, ms, some ((("Basic ").toList) ++ cfg.auth_token), ("cd").toList⟩,
         ⟨url, ms, some ((("Basic ").toList) ++ cfg.auth_token), ("ef").toList⟩]
        http none = (http, some ⟨some (("abcdef").toList), true⟩) := by
      simp only [run_calls, h1, h2, h3, h4, HttpPriv_eta]
    rw [hrun]
    refine ⟨rfl, ?_⟩
    have hauth : (check_auth
        (some ((("Basic ").toList) ++ cfg.auth_token)) cfg.auth_token
        (⟨some (("abcdef").toList), true⟩ : ConnectionInfo)).1 = false := by
      rw [check_auth_already _ _ _ rfl]
    rw [atc_invoke cfg http _ _ rfl hmo hro hauth lp arg hfind]
    rfl

/-- Witness for C7: a POST with body chunks against a route at `/a`. -/
theorem C7_body_assembly_witness :
    (run_calls ⟨false, ("tok").toList⟩
        [⟨("/a/b").toList, ("POST").toList,
            some ((("Basic ").toList) ++ ("tok").toList), []⟩,
         ⟨("/a/b").toList, ("POST").toList,
            some ((("Basic ").toList) ++ ("tok").toList), ("ab").toList⟩,
         ⟨("/a/b").toList, ("POST").toList,
            some ((("Basic ").toList) ++ ("tok").toList), ("cd").toList⟩,
         ⟨("/a/b").toList, ("POST").toList,
            some ((("Basic ").toList) ++ ("tok").toList), ("ef").toList⟩]
        ⟨none, [⟨("/a").toList, fun _ => true, 7⟩]⟩ none).2 =
      some ⟨some (("abcdef").toList), true⟩ :=
  (C7_body_assembly.2.2 ⟨false, ("tok").toList⟩
    ⟨none, [⟨("/a").toList, fun _ => true, 7⟩]⟩
    (("/a/b").toList) (("POST").toList)
    ⟨("/a").toList, fun _ => true, 7⟩ (some (("b").toList))
    rfl (by decide) (by decide)).1
